import Mathlib

/-!
# Verification of the startup-analysis pipeline

This file gives a shallow embedding, in Lean 4, of the text-processing core of
the startup-analysis web application: the JSON-block metrics extractor of the
comparison page (`extractMetricsFromText` / `processBusinessData`), the regex
heuristics of the single-subject page (`extractDataFromAnalysis`), the section
splitter of the analysis API route (`parseContentIntoSections` /
`extractSection` / `formatBulletPoints`), the chart-side market-size string
conversion, and the submission control flow of `AnalysisForm`.

JavaScript regular expressions are embedded as executable backtracking
matchers over `List Char`, written in continuation-passing style so that lazy
quantifiers, greedy quantifiers and ordered alternation have exactly the
regex-engine semantics.  Machine numbers are modelled as `ℚ` (the inputs of
interest are exact decimals; `NaN` outcomes of the JavaScript code are
modelled as `none`, which is noted at each spot where it matters).
-/

set_option autoImplicit false

namespace StartupXray

/-! ## Character classes (JavaScript regex semantics, ASCII fragment) -/

/-- JavaScript regex `\s` restricted to the ASCII whitespace actually present
in oracle text: space, tab, newline, carriage return. -/
def jsWs (c : Char) : Bool :=
  c == ' ' || c == '\t' || c == '\n' || c == '\r'

/-- JavaScript regex word character (`\w`), ASCII fragment. -/
def isWordC (c : Char) : Bool :=
  c.isAlpha || c.isDigit || c == '_'

def isUpperAZ (c : Char) : Bool := 'A' ≤ c && c ≤ 'Z'

def isLowerAZ (c : Char) : Bool := 'a' ≤ c && c ≤ 'z'

/-- The left-brace character, `\x7b`. -/
def lbrace : Char := Char.ofNat 123

/-- The right-brace character, `\x7d`. -/
def rbrace : Char := Char.ofNat 125

/-- Case-insensitive match of a literal against a prefix of the input,
returning the rest of the input (the `i` flag of the source regexes). -/
def litMatch : List Char → List Char → Option (List Char)
  | [], cs => some cs
  | _ :: _, [] => none
  | p :: ps, c :: cs => if p.toLower == c.toLower then litMatch ps cs else none

/-- Case-sensitive prefix test. -/
def startsWithL : List Char → List Char → Bool
  | [], _ => true
  | _ :: _, [] => false
  | p :: ps, c :: cs => p == c && startsWithL ps cs

/-- Index of the first (case-sensitive) occurrence of `needle`. -/
def findSubIdx (needle : List Char) : List Char → Option Nat
  | [] => if needle.isEmpty then some 0 else none
  | c :: cs =>
    if startsWithL needle (c :: cs) then some 0
    else (findSubIdx needle cs).map (· + 1)

/-- Index of the first case-insensitive occurrence of `needle`. -/
def findSubIdxCI (needle : List Char) : List Char → Option Nat
  | [] => if needle.isEmpty then some 0 else none
  | c :: cs =>
    if (litMatch needle (c :: cs)).isSome then some 0
    else (findSubIdxCI needle cs).map (· + 1)

/-- `haystack.includes(needle)`, case-sensitive. -/
def containsSub (haystack needle : String) : Bool :=
  (findSubIdx needle.data haystack.data).isSome

/-- Strip `jsWs` characters from both ends (JavaScript `String.trim`). -/
def trimWs (cs : List Char) : List Char :=
  ((cs.dropWhile jsWs).reverse.dropWhile jsWs).reverse

/-- Digit run to a natural number. -/
def digitsToNat (ds : List Char) : Nat :=
  ds.foldl (fun n c => n * 10 + (c.toNat - 48)) 0

/-! ## A continuation-passing matcher for the source's regex fragment

A `Cont` is fed the input remaining after the part of the pattern already
matched; it returns the contents of the pattern's (single) capture group if
the rest of the pattern succeeds, and `none` if it fails, triggering
backtracking in the combinator that called it.  Combinators try alternatives
in exactly the order a backtracking regex engine does, so greedy/lazy
quantifier semantics and ordered alternation are preserved. -/

def Cont : Type := List Char → Option (List Char)

/-- Final continuation: the pattern has no trailing context; the capture is
filled in by `pcap` on the way out. -/
def contDone : Cont := fun _ => some []

/-- Case-insensitive literal. -/
def plit (s : String) (k : Cont) : Cont := fun cs =>
  match litMatch s.data cs with
  | some rest => k rest
  | none => none

/-- Ordered alternation `(a|b)`. -/
def palt (p q : Cont → Cont) (k : Cont) : Cont := fun cs =>
  p k cs <|> q k cs

/-- Ordered alternation over a list of branches. -/
def pAlts : List (Cont → Cont) → Cont → Cont
  | [], _ => fun _ => none
  | [p], k => p k
  | p :: ps, k => palt p (pAlts ps) k

/-- Greedy option `(?:a)?`. -/
def popt (p : Cont → Cont) (k : Cont) : Cont := fun cs =>
  p k cs <|> k cs

/-- Single character from a class. -/
def pchar (p : Char → Bool) (k : Cont) : Cont := fun cs =>
  match cs with
  | [] => none
  | c :: rest => if p c then k rest else none

/-- Greedy star over a character class, with backtracking (longest first). -/
def starGo (p : Char → Bool) (k : Cont) : List Char → Option (List Char)
  | [] => k []
  | c :: cs => if p c then (starGo p k cs <|> k (c :: cs)) else k (c :: cs)

def pstar (p : Char → Bool) (k : Cont) : Cont := starGo p k

/-- Greedy plus over a character class. -/
def pplus (p : Char → Bool) (k : Cont) : Cont := fun cs =>
  match cs with
  | [] => none
  | c :: rest => if p c then starGo p k rest else none

/-- `\s*`. -/
def pws (k : Cont) : Cont := pstar jsWs k

/-- `\d+`. -/
def pdigits (k : Cont) : Cont := pplus Char.isDigit k

/-- Exactly `n` digits (`\d{n}`). -/
def pdigitsN : Nat → Cont → Cont
  | 0, k => k
  | n + 1, k => pchar Char.isDigit (pdigitsN n k)

/-- Lazy star over a character class (shortest first). -/
def lazyGo (p : Char → Bool) (k : Cont) : List Char → Option (List Char)
  | [] => k []
  | c :: cs => k (c :: cs) <|> (if p c then lazyGo p k cs else none)

/-- `[\s\S]*?`. -/
def planyLazy (k : Cont) : Cont := lazyGo (fun _ => true) k

/-- `.*?` without the `s` flag: lazy, not crossing line terminators. -/
def pnnlLazy (k : Cont) : Cont := lazyGo (fun c => !(c == '\n' || c == '\r')) k

/-- `[^.]*?`. -/
def pnotDotLazy (k : Cont) : Cont := lazyGo (fun c => c != '.') k

/-- Capture group: records the span consumed by `sub` as the result, provided
the continuation (the rest of the pattern) succeeds. -/
def pcap (sub : Cont → Cont) (k : Cont) : Cont := fun cs =>
  sub (fun rest => (k rest).map (fun _ => cs.take (cs.length - rest.length))) cs

/-- One-or-more repetitions of a subpattern, greedy, fueled (every source use
consumes at least one character per repetition). -/
def repGo : Nat → (Cont → Cont) → Cont → Cont
  | 0, _, _ => fun _ => none
  | fuel + 1, p, k => fun cs => p (fun rest => repGo fuel p k rest <|> k rest) cs

def pplusPat (p : Cont → Cont) (k : Cont) : Cont := fun cs =>
  repGo (cs.length + 1) p k cs

/-- `String.match` without `g`: try the pattern at each position, leftmost
first, and return the contents of capture group 1. -/
def searchCap (p : Cont → Cont) : List Char → Option (List Char)
  | [] => p contDone []
  | c :: cs => p contDone (c :: cs) <|> searchCap p cs

/-- Leftmost match position and length (for patterns without captures). -/
def searchIdxGo (p : Cont → Cont) : Nat → List Char → Option (Nat × Nat)
  | i, [] =>
    match p some [] with
    | some _ => some (i, 0)
    | none => none
  | i, c :: cs =>
    match p some (c :: cs) with
    | some rest => some (i, (c :: cs).length - rest.length)
    | none => searchIdxGo p (i + 1) cs

def searchIdx (p : Cont → Cont) (cs : List Char) : Option (Nat × Nat) :=
  searchIdxGo p 0 cs

/-- Offset of the first position at which `p` matches, or the end of input:
the stopping point of `[\s\S]*?(?=p|$)`. -/
def stopScan (p : Cont → Cont) : List Char → Nat
  | [] => 0
  | c :: cs =>
    match p some (c :: cs) with
    | some _ => 0
    | none => 1 + stopScan p cs

/-! ## JSON values and `JSON.parse`

The comparison page feeds the fenced block through `JSON.parse`.  We embed
JSON values as an inductive type and `JSON.parse` as a strict, fueled
recursive-descent parser (objects keep their entries in order; a duplicate
key resolves to the last entry, as in JavaScript). -/

inductive Json where
  | null : Json
  | bool : Bool → Json
  | num : ℚ → Json
  | str : String → Json
  | arr : List Json → Json
  | obj : List (String × Json) → Json

/-- Property lookup on an object member list; the last duplicate wins. -/
def objGetList (key : String) : List (String × Json) → Option Json
  | [] => none
  | (k, v) :: rest =>
    match objGetList key rest with
    | some v' => some v'
    | none => if k == key then some v else none

/-- `jsonData[key]`: property read; reads on non-objects yield `undefined`
(the string keys used by the source never hit array indices). -/
def objGet (j : Json) (key : String) : Option Json :=
  match j with
  | .obj l => objGetList key l
  | _ => none

/-- JavaScript truthiness of a JSON value. -/
def jsTruthy : Json → Bool
  | .null => false
  | .bool b => b
  | .num q => q != 0
  | .str s => s != ""
  | .arr _ => true
  | .obj _ => true

def skipJWs (cs : List Char) : List Char := cs.dropWhile jsWs

def hexVal (c : Char) : Option Nat :=
  if c.isDigit then some (c.toNat - 48)
  else if 'a' ≤ c && c ≤ 'f' then some (c.toNat - 87)
  else if 'A' ≤ c && c ≤ 'F' then some (c.toNat - 55)
  else none

/-- JSON string body (after the opening quote), strict about escapes and raw
control characters, like `JSON.parse`. -/
def parseJStrGo : Nat → List Char → List Char → Option (String × List Char)
  | 0, _, _ => none
  | fuel + 1, acc, cs =>
    match cs with
    | [] => none
    | c :: rest =>
      if c == '"' then some (String.mk acc.reverse, rest)
      else if c == '\\' then
        match rest with
        | [] => none
        | e :: rest' =>
          if e == 'u' then
            match rest' with
            | h1 :: h2 :: h3 :: h4 :: rest'' =>
              match hexVal h1, hexVal h2, hexVal h3, hexVal h4 with
              | some a, some b, some c3, some d =>
                parseJStrGo fuel (Char.ofNat (((a * 16 + b) * 16 + c3) * 16 + d) :: acc) rest''
              | _, _, _, _ => none
            | _ => none
          else if e == '"' || e == '\\' || e == '/' then parseJStrGo fuel (e :: acc) rest'
          else if e == 'n' then parseJStrGo fuel ('\n' :: acc) rest'
          else if e == 't' then parseJStrGo fuel ('\t' :: acc) rest'
          else if e == 'r' then parseJStrGo fuel ('\r' :: acc) rest'
          else if e == 'b' then parseJStrGo fuel (Char.ofNat 8 :: acc) rest'
          else if e == 'f' then parseJStrGo fuel (Char.ofNat 12 :: acc) rest'
          else none
      else if c.toNat < 32 then none
      else parseJStrGo fuel (c :: acc) rest

/-- JSON number: `-? (0 | [1-9][0-9]*) (\.[0-9]+)? ([eE][+-]?[0-9]+)?`. -/
def parseJNum (cs : List Char) : Option (ℚ × List Char) :=
  let (sign, cs1) : ℚ × List Char :=
    match cs with
    | '-' :: rest => (-1, rest)
    | _ => (1, cs)
  let intDs := cs1.takeWhile Char.isDigit
  if intDs.isEmpty then none
  else if intDs.length > 1 && intDs.headD '0' == '0' then none
  else
    let cs2 := cs1.drop intDs.length
    let (fracDs, cs3) : List Char × List Char :=
      match cs2 with
      | '.' :: rest => (rest.takeWhile Char.isDigit, rest.drop (rest.takeWhile Char.isDigit).length)
      | _ => ([], cs2)
    match cs2 with
    | '.' :: _ =>
      if fracDs.isEmpty then none
      else parseJNumExp sign intDs fracDs cs3
    | _ => parseJNumExp sign intDs fracDs cs3
where
  parseJNumExp (sign : ℚ) (intDs fracDs : List Char) (cs : List Char) :
      Option (ℚ × List Char) :=
    let mant : ℚ := sign * ((digitsToNat intDs : ℚ) + (digitsToNat fracDs : ℚ) / 10 ^ fracDs.length)
    match cs with
    | 'e' :: rest => parseJNumExpTail mant rest
    | 'E' :: rest => parseJNumExpTail mant rest
    | _ => some (mant, cs)
  parseJNumExpTail (mant : ℚ) (cs : List Char) : Option (ℚ × List Char) :=
    let (esign, cs1) : ℤ × List Char :=
      match cs with
      | '+' :: rest => (1, rest)
      | '-' :: rest => (-1, rest)
      | _ => (1, cs)
    let expDs := cs1.takeWhile Char.isDigit
    if expDs.isEmpty then none
    else some (mant * (10 : ℚ) ^ (esign * (digitsToNat expDs : ℤ)), cs1.drop expDs.length)

mutual

/-- One JSON value (leading whitespace allowed), fueled. -/
def parseJVal : Nat → List Char → Option (Json × List Char)
  | 0, _ => none
  | fuel + 1, cs =>
    let cs := skipJWs cs
    match cs with
    | [] => none
    | c :: rest =>
      if c == '"' then
        (parseJStrGo (rest.length + 1) [] rest).map (fun p => (Json.str p.1, p.2))
      else if c == lbrace then
        let rest' := skipJWs rest
        match rest' with
        | d :: rest'' =>
          if d == rbrace then some (Json.obj [], rest'')
          else (parseJMembers fuel rest' []).map (fun p => (Json.obj p.1.reverse, p.2))
        | [] => none
      else if c == '[' then
        let rest' := skipJWs rest
        match rest' with
        | d :: rest'' =>
          if d == ']' then some (Json.arr [], rest'')
          else (parseJItems fuel rest' []).map (fun p => (Json.arr p.1.reverse, p.2))
        | [] => none
      else if startsWithL "true".data cs then some (Json.bool true, cs.drop 4)
      else if startsWithL "false".data cs then some (Json.bool false, cs.drop 5)
      else if startsWithL "null".data cs then some (Json.null, cs.drop 4)
      else if c == '-' || c.isDigit then
        (parseJNum cs).map (fun p => (Json.num p.1, p.2))
      else none

/-- Object members, comma-separated, accumulated in reverse. -/
def parseJMembers : Nat → List Char → List (String × Json) →
    Option (List (String × Json) × List Char)
  | 0, _, _ => none
  | fuel + 1, cs, acc =>
    let cs := skipJWs cs
    match cs with
    | '"' :: rest =>
      match parseJStrGo (rest.length + 1) [] rest with
      | some (key, rest1) =>
        match skipJWs rest1 with
        | ':' :: rest2 =>
          match parseJVal fuel rest2 with
          | some (v, rest3) =>
            match skipJWs rest3 with
            | ',' :: rest4 => parseJMembers fuel rest4 ((key, v) :: acc)
            | d :: rest4 =>
              if d == rbrace then some ((key, v) :: acc, rest4) else none
            | [] => none
          | none => none
        | _ => none
      | none => none
    | _ => none

/-- Array items, comma-separated, accumulated in reverse. -/
def parseJItems : Nat → List Char → List Json → Option (List Json × List Char)
  | 0, _, _ => none
  | fuel + 1, cs, acc =>
    match parseJVal fuel cs with
    | some (v, rest) =>
      match skipJWs rest with
      | ',' :: rest' => parseJItems fuel rest' (v :: acc)
      | ']' :: rest' => some (v :: acc, rest')
      | _ => none
    | none => none

end

/-- `JSON.parse`: one value, then only whitespace may remain. -/
def parseJson (s : String) : Option Json :=
  match parseJVal (s.data.length + 1) s.data with
  | some (j, rest) => if (skipJWs rest).isEmpty then some j else none
  | none => none

/-! ## Comparison-page metrics extraction (`page.tsx`, compare variant)

`extractMetricsFromText(text, businessNames)` initialises an all-`null`
metrics record per business, looks for a fenced (or bare) JSON block, parses
it, and fills the records via `processBusinessData`.  It returns the records
in every case; no code path throws out of it (a `JSON.parse` failure is
caught and falls through to the final `return metrics`). -/

/-- The per-business metrics record of the comparison page.  `foundingYear`
is stored as whatever truthy value the JSON held (`data.foundingYear ||
null`); the other fields are numbers produced by arithmetic on the JSON
value.  A truthy non-numeric JSON value in a numeric field (which JavaScript
would coerce, typically to `NaN`) is modelled as unknown. -/
structure BusinessMetrics where
  foundingYear : Option Json
  funding : Option ℚ
  valuation : Option ℚ
  employees : Option ℚ
  revenue : Option ℚ
  growthRate : Option ℚ
  marketShare : Option ℚ
  marketSize : Option ℚ

/-- The initial record: every metric `null`. -/
def emptyMetrics : BusinessMetrics :=
  ⟨none, none, none, none, none, none, none, none⟩

/-- The ratio normalisation the spec calls `normalizeRatio`: the source
expression `value <= 1 ? value * 100 : value` applied to `growthRate` and
`marketShare` in `processBusinessData`. -/
def ratioToPercent (v : ℚ) : ℚ :=
  if v ≤ 1 then v * 100 else v

/-- Truthiness-gated numeric field read: `data[key] ? scale(data[key]) :
null`. -/
def jsNumField (data : Json) (key : String) (scale : ℚ → ℚ) : Option ℚ :=
  match objGet data key with
  | some v =>
    if jsTruthy v then
      match v with
      | .num q => some (scale q)
      | _ => none
    else none
  | none => none

/-- `data[key] === u` for a string literal `u`. -/
def unitIs (data : Json) (key : String) (u : String) : Bool :=
  match objGet data key with
  | some (.str s) => s == u
  | _ => false

/-- JavaScript `parseInt` on a character list (base 10): optional sign, then
leading digits; no digits gives `NaN`, modelled as `none`. -/
def jsParseInt (cs : List Char) : Option ℚ :=
  let cs1 := cs.dropWhile jsWs
  let (sign, cs2) : ℚ × List Char :=
    match cs1 with
    | '-' :: rest => (-1, rest)
    | '+' :: rest => (1, rest)
    | _ => (1, cs1)
  let ds := cs2.takeWhile Char.isDigit
  if ds.isEmpty then none else some (sign * (digitsToNat ds : ℚ))

/-- `processBusinessData(data, metricsObj)`: fills one business's metrics
from its JSON value.  Every field is gated on JavaScript truthiness of the
raw JSON value; the unit fields scale the value as in the source:
funding/revenue scale only `'billion'` (×1000), valuation scales
`'trillion'` (×1,000,000) and `'billion'` (×1000), marketSize scales
`'trillion'` (×1000), growthRate/marketShare go through `ratioToPercent`,
and a string employee count is `parseInt`ed after removing underscores. -/
def processBusinessData (data : Json) : BusinessMetrics where
  foundingYear :=
    match objGet data "foundingYear" with
    | some v => if jsTruthy v then some v else none
    | none => none
  funding :=
    jsNumField data "funding"
      (fun v => if unitIs data "fundingUnit" "billion" then v * 1000 else v)
  valuation :=
    jsNumField data "valuation"
      (fun v =>
        if unitIs data "valuationUnit" "trillion" then v * 1000000
        else if unitIs data "valuationUnit" "billion" then v * 1000
        else v)
  employees :=
    match objGet data "employees" with
    | some v =>
      if jsTruthy v then
        match v with
        | .str s => jsParseInt (s.data.filter (fun c => c != '_'))
        | .num q => some q
        | _ => none
      else none
    | none => none
  revenue :=
    jsNumField data "revenue"
      (fun v => if unitIs data "revenueUnit" "billion" then v * 1000 else v)
  growthRate := jsNumField data "growthRate" ratioToPercent
  marketShare := jsNumField data "marketShare" ratioToPercent
  marketSize :=
    jsNumField data "marketSize"
      (fun v => if unitIs data "marketSizeUnit" "trillion" then v * 1000 else v)

/-- `jsonData[key]` when the value is truthy, else `none` (the guard used on
both lookup attempts). -/
def truthyGet (jsonData : Json) (key : String) : Option Json :=
  match objGet jsonData key with
  | some v => if jsTruthy v then some v else none
  | none => none

/-- The key-matching step for one business name: try
`jsonData[name.toLowerCase()]` first, else `jsonData[name]` verbatim, else
leave the record all-`null`.  There is no other matching. -/
def lookupMetrics (jsonData : Json) (name : String) : BusinessMetrics :=
  match truthyGet jsonData name.toLower with
  | some v => processBusinessData v
  | none =>
    match truthyGet jsonData name with
    | some w => processBusinessData w
    | none => emptyMetrics

/-- The fenced-block search `/⟨tag⟩\s*([\s\S]*?)\s*⟨fence⟩/`: first `tag`
occurrence, then the first triple-backtick after it; the capture is the
whitespace-trimmed span in between, the whole match runs through the closing
fence.  (A later `tag` occurrence cannot match when the first fails, since
any later occurrence of the opening would itself supply a closing fence.) -/
def matchFenced (tag : List Char) (cs : List Char) : Option (String × String) :=
  match findSubIdx tag cs with
  | none => none
  | some i =>
    let afterOpen := (cs.drop i).drop tag.length
    match findSubIdx "```".data afterOpen with
    | none => none
    | some j =>
      some (String.mk (trimWs (afterOpen.take j)),
        String.mk ((cs.drop i).take (tag.length + j + 3)))

/-- `"[^"]+"`. -/
def pquotedKey (k : Cont) : Cont :=
  pchar (· == '"') (pplus (fun c => c != '"') (pchar (· == '"') k))

/-- The bare two-entry object pattern
`\{\s*"[^"]+"\s*:\s*\{[\s\S]*?\}\s*,\s*"[^"]+"\s*:\s*\{[\s\S]*?\}\s*\}`. -/
def pbareObj : Cont → Cont := fun k =>
  pchar (· == lbrace) (pws (pquotedKey (pws (pchar (· == ':') (pws (pchar (· == lbrace)
    (planyLazy (pchar (· == rbrace) (pws (pchar (· == ',') (pws (pquotedKey
      (pws (pchar (· == ':') (pws (pchar (· == lbrace) (planyLazy (pchar (· == rbrace)
        (pws (pchar (· == rbrace) k))))))))))))))))))))

/-- The JSON-block location cascade of `extractMetricsFromText`: a
` ```json `-tagged fence, else any fence, else a bare two-entry object; the
extracted string is capture 1 if non-empty, else the whole match. -/
def findJsonBlock (text : String) : Option String :=
  let cs := text.data
  match matchFenced "```json".data cs with
  | some (cap, whole) => some (if cap == "" then whole else cap)
  | none =>
    match matchFenced "```".data cs with
    | some (cap, whole) => some (if cap == "" then whole else cap)
    | none =>
      match searchIdx pbareObj cs with
      | some (i, len) => some (String.mk ((cs.drop i).take len))
      | none => none

/-- The control-character strip applied before `JSON.parse`
(`/[\u0000-\u001F\u007F-\u009F]/g` removed). -/
def cleanControlChars (s : String) : String :=
  String.mk (s.data.filter
    (fun c => !(decide (c.toNat ≤ 31) || (decide (127 ≤ c.toNat) && decide (c.toNat ≤ 159)))))

/-- `extractMetricsFromText(text, businessNames)` for the two business
names.  It always returns a pair of metrics records: if no JSON block is
found, or `JSON.parse` fails (the `catch` branch), the initial all-`null`
records are returned. -/
def extractMetricsFromText (text : String) (name1 name2 : String) :
    BusinessMetrics × BusinessMetrics :=
  match findJsonBlock text with
  | some jsonStr =>
    match parseJson (cleanControlChars jsonStr) with
    | some jsonData => (lookupMetrics jsonData name1, lookupMetrics jsonData name2)
    | none => (emptyMetrics, emptyMetrics)
  | none => (emptyMetrics, emptyMetrics)

/-- The comparison table's funding cell: `funding !== null ? `$...M` :
'N/A'`. -/
def renderFundingCell (v : Option ℚ) : String :=
  match v with
  | none => "N/A"
  | some q => "$" ++ toString q ++ "M"

/-! ## Chart-side market-size conversion (single-subject page, chart effect)

The single-subject page converts the extracted market-size *string* to a
number of millions before charting: `billion`/`bn` ×1000, `million`/`mn` ×1,
`trillion`/`tn` ×1,000,000, anything else unscaled. -/

/-- `parseFloat` restricted to the post-strip alphabet `[0-9.]` (the source
strips every other character first): leading digits, optionally a dot and
more digits; no digit at all is `NaN`, modelled `none`. -/
def jsParseFloat (cs : List Char) : Option ℚ :=
  let intDs := cs.takeWhile Char.isDigit
  match cs.drop intDs.length with
  | '.' :: rest =>
    let fracDs := rest.takeWhile Char.isDigit
    if intDs.isEmpty && fracDs.isEmpty then none
    else some ((digitsToNat intDs : ℚ) + (digitsToNat fracDs : ℚ) / 10 ^ fracDs.length)
  | _ => if intDs.isEmpty then none else some (digitsToNat intDs : ℚ)

/-- The `marketSizeValue` conversion in the chart effect: lowercase, test the
unit word by substring inclusion (in source order billion → million →
trillion), strip `[^\d.]` and `parseFloat`. -/
def marketSizeValue (marketSize : String) : Option ℚ :=
  let str := marketSize.toLower
  let n := jsParseFloat (str.data.filter (fun c => c.isDigit || c == '.'))
  if containsSub str "billion" || containsSub str "bn" then n.map (· * 1000)
  else if containsSub str "million" || containsSub str "mn" then n
  else if containsSub str "trillion" || containsSub str "tn" then n.map (· * 1000000)
  else n

/-! ## Heuristic extraction (single-subject page, `extractDataFromAnalysis`)

An ordered list of patterns per metric; the first pattern that matches
anywhere in the text wins.  Market size and competitors fall back to a
search inside the `## Market Opportunity` / `## Competitive Landscape`
section when no whole-text pattern matched. -/

/-- `[bmtk]` (case-insensitively). -/
def inBMTK (c : Char) : Bool :=
  let l := c.toLower
  l == 'b' || l == 'm' || l == 't' || l == 'k'

/-- The money pattern `\$\d+(?:\.\d+)?(?:\s*[bmtk]illion|\s*[bmtk]n)`. -/
def pmoney (k : Cont) : Cont :=
  plit "$" (pdigits (popt (fun k' => plit "." (pdigits k'))
    (palt (fun k' => pws (pchar inBMTK (plit "illion" k')))
          (fun k' => pws (pchar inBMTK (plit "n" k'))) k)))

/-- `(?:approximately |about |around |estimated at )?`. -/
def poptApprox (k : Cont) : Cont :=
  popt (pAlts [plit "approximately ", plit "about ", plit "around ", plit "estimated at "]) k

/-- `(?:over |approximately |about |~)?`. -/
def poptOver (k : Cont) : Cont :=
  popt (pAlts [plit "over ", plit "approximately ", plit "about ", plit "~"]) k

/-- The ten `marketSizePatterns`, in source order. -/
def marketSizePatterns : List (Cont → Cont) :=
  [ fun k => plit "market size " (palt (plit "is") (plit "of") (plit " " (poptApprox (pcap pmoney k)))),
    fun k => plit "total addressable market " (popt (plit "(TAM) ")
      (palt (plit "is") (plit "of") (plit " " (poptApprox (pcap pmoney k))))),
    fun k => plit "TAM " (palt (plit "is") (plit "of") (plit " " (poptApprox (pcap pmoney k)))),
    fun k => pcap pmoney (pAlts
      [fun k' => pws (plit "market" k'), plit " TAM", plit " addressable market"] k),
    fun k => plit "market " (palt (plit "size") (plit "opportunity") (pnnlLazy (pcap pmoney k))),
    fun k => plit "market " (pAlts [plit "is", plit "of", plit "worth", plit "valued at"]
      (plit " " (poptApprox (pcap pmoney k)))),
    fun k => plit "market" (pnnlLazy (pcap pmoney k)),
    fun k => plit "worth " (poptApprox (pcap pmoney k)),
    fun k => plit "valued at " (poptApprox (pcap pmoney k)),
    fun k => plit "estimated " (popt (pAlts
      [plit "to be ", plit "at ", plit "around ", plit "approximately "]) (pcap pmoney k)) ]

/-- The nine `foundingYearPatterns`, in source order; each captures `\d{4}`. -/
def foundingYearPatterns : List (Cont → Cont) :=
  [ fun k => plit "founded in " (pcap (pdigitsN 4) k),
    fun k => plit "founded " (pcap (pdigitsN 4) k),
    fun k => plit "established in " (pcap (pdigitsN 4) k),
    fun k => plit "launched in " (pcap (pdigitsN 4) k),
    fun k => plit "started in " (pcap (pdigitsN 4) k),
    fun k => plit "inception in " (pcap (pdigitsN 4) k),
    fun k => plit "founded" (pnnlLazy (plit "in " (pcap (pdigitsN 4) k))),
    fun k => plit "began" (pnnlLazy (plit "in " (pcap (pdigitsN 4) k))),
    fun k => plit "created in " (pcap (pdigitsN 4) k) ]

/-- The employee-count capture `(\d+(?:[,\s]\d+)?)`. -/
def pempNum (k : Cont) : Cont :=
  pcap (fun k' => pdigits (popt (fun k'' =>
    pchar (fun c => c == ',' || jsWs c) (pdigits k'')) k')) k

/-- `(?:employees|team members|staff)`. -/
def pempKinds (k : Cont) : Cont :=
  pAlts [plit "employees", plit "team members", plit "staff"] k

/-- The nine `employeePatterns`, in source order. -/
def employeePatterns : List (Cont → Cont) :=
  [ fun k => pempNum (pws (pempKinds k)),
    fun k => plit "team of " (pempNum k),
    fun k => plit "workforce of " (pempNum k),
    fun k => plit "has " (pempNum (pws (pempKinds k))),
    fun k => plit "currently has " (pempNum (pws (pempKinds k))),
    fun k => plit "employs " (pempNum k),
    fun k => plit "approximately " (pempNum (pws (pempKinds k))),
    fun k => plit "about " (pempNum (pws (pempKinds k))),
    fun k => plit "around " (pempNum (pws (pempKinds k))) ]

/-- The seven `fundingPatterns`, in source order. -/
def fundingPatterns : List (Cont → Cont) :=
  [ fun k => plit "raised " (poptOver (pcap pmoney k)),
    fun k => plit "funding of " (poptOver (pcap pmoney k)),
    fun k => plit "secured " (poptOver (pcap pmoney k)),
    fun k => plit "total funding of " (poptOver (pcap pmoney k)),
    fun k => plit "has raised " (poptOver (pcap pmoney k)),
    fun k => plit "raised" (pnnlLazy (pcap pmoney k)),
    fun k => plit "funding" (pnnlLazy (pcap pmoney k)) ]

/-- The five `valuationPatterns`, in source order. -/
def valuationPatterns : List (Cont → Cont) :=
  [ fun k => plit "valued at " (poptOver (pcap pmoney k)),
    fun k => plit "valuation of " (poptOver (pcap pmoney k)),
    fun k => plit "worth " (poptOver (pcap pmoney k)),
    fun k => plit "currently valued at " (poptOver (pcap pmoney k)),
    fun k => plit "valuation" (pnnlLazy (pcap pmoney k)) ]

/-- The three `revenuePatterns`, in source order. -/
def revenuePatterns : List (Cont → Cont) :=
  [ fun k => plit "annual revenue is approximately " (pcap pmoney k),
    fun k => plit "revenue estimate is approximately " (pcap pmoney k),
    fun k => plit "revenue" (pnnlLazy (pcap pmoney k)) ]

/-- One competitor-list chunk `[A-Za-z0-9\s]+(?:,|and|\.|;)[\s]*`. -/
def pcompChunk (k : Cont) : Cont :=
  pplus (fun c => c.isAlpha || c.isDigit || jsWs c)
    (pAlts [pchar (· == ','), plit "and", pchar (· == '.'), pchar (· == ';')] (pws k))

/-- The captured repetition `((?:[A-Za-z0-9\s]+(?:,|and|\.|;)[\s]*)+)`. -/
def pcompList (k : Cont) : Cont := pcap (pplusPat pcompChunk) k

/-- The eight `competitorPatterns`, in source order. -/
def competitorPatterns : List (Cont → Cont) :=
  [ fun k => plit "competitors include " (pcompList k),
    fun k => plit "competes with " (pcompList k),
    fun k => plit "competitors are " (pcompList k),
    fun k => plit "competitive landscape" (pnotDotLazy (pcompList k)),
    fun k => plit "main competitors" (pnotDotLazy (pcompList k)),
    fun k => plit "direct competitors" (pnotDotLazy (pcompList k)),
    fun k => plit "competitors" (pnotDotLazy (pcompList k)),
    fun k => plit "competing with" (pnotDotLazy (pcompList k)) ]

/-- First pattern whose whole-text search succeeds; its capture. -/
def firstCapture : List (Cont → Cont) → List Char → Option (List Char)
  | [], _ => none
  | p :: ps, cs =>
    match searchCap p cs with
    | some cap => some cap
    | none => firstCapture ps cs

/-- `String.split(/,|and|;/)`: case-sensitive separators; a literal `and`
splits even inside a word, as in the source. -/
def splitSepsGo : List Char → List Char → List (List Char)
  | acc, [] => [acc.reverse]
  | acc, 'a' :: 'n' :: 'd' :: rest => acc.reverse :: splitSepsGo [] rest
  | acc, c :: cs =>
    if c == ',' || c == ';' then acc.reverse :: splitSepsGo [] cs
    else splitSepsGo (c :: acc) cs

/-- Filter of split competitor tokens: truthy, longer than one character,
and not exactly `such as`/`including`/`like` (case-insensitively). -/
def competitorTokenOk (tok : String) : Bool :=
  let l := tok.toLower
  tok != "" && decide (1 < tok.length) &&
    !(l == "such as" || l == "including" || l == "like")

/-- Split a captured competitor list into trimmed, filtered tokens. -/
def competitorsFromCapture (cap : List Char) : List String :=
  ((splitSepsGo [] cap).map (fun t => String.mk (trimWs t))).filter competitorTokenOk

/-- The competitor-pattern loop: the first pattern that matches *and* leaves a
non-empty token list after filtering wins; otherwise the next pattern is
tried. -/
def competitorsPrimary : List (Cont → Cont) → List Char → List String
  | [], _ => []
  | p :: ps, cs =>
    match searchCap p cs with
    | some cap =>
      if cap.isEmpty then competitorsPrimary ps cs
      else
        let toks := competitorsFromCapture cap
        if toks.isEmpty then competitorsPrimary ps cs else toks
    | none => competitorsPrimary ps cs

/-- `/⟨header⟩([\s\S]*?)(?:##|$)/i`: the span after the first (case-insensitive)
occurrence of the header, up to the next `##` or the end. -/
def sectionSpan (header : String) (cs : List Char) : Option (List Char) :=
  match findSubIdxCI header.data cs with
  | none => none
  | some i =>
    let after := (cs.drop i).drop header.data.length
    match findSubIdx "##".data after with
    | some j => some (after.take j)
    | none => some after

/-- Market-size fallback: any money amount inside the
`## Market Opportunity` section. -/
def marketSectionFallback (cs : List Char) : Option String :=
  match sectionSpan "## Market Opportunity" cs with
  | some sec =>
    if sec.isEmpty then none
    else (searchCap (fun k => pcap pmoney k) sec).map String.mk
  | none => none

/-- The `commonWords` stopword list of the competitive-landscape fallback. -/
def commonWords : List String :=
  ["The", "This", "These", "Their", "They", "It", "Its", "In", "On", "At",
   "By", "For", "With", "About", "Against", "Between", "Into", "Through"]

/-- The star part of `(?:\s[A-Z][a-z]+)*`: maximal run of groups, each one
whitespace character then a capitalised word; returns the groups and the
rest. -/
def capGroupsGo : List Char → List (List Char) × List Char
  | [] => ([], [])
  | w :: rest =>
    if jsWs w then
      match rest with
      | u :: rest' =>
        if isUpperAZ u then
          let ls := rest'.takeWhile isLowerAZ
          if ls.isEmpty then ([], w :: rest)
          else
            let (gs, r) := capGroupsGo (rest'.drop ls.length)
            ((w :: u :: ls) :: gs, r)
        else ([], w :: rest)
      | [] => ([], [w])
    else ([], w :: rest)
  termination_by cs => cs.length
  decreasing_by simp [List.length_drop]; omega

/-- One attempt of `\b([A-Z][a-z]+(?:\s[A-Z][a-z]+)*)\b` at the current
position (the leading boundary is checked by the caller).  If the trailing
boundary fails after the maximal group run, the engine backtracks by
dropping the last group (a boundary inside a letter run can never
succeed). -/
def capMatchAt (cs : List Char) : Option (List Char × List Char) :=
  match cs with
  | [] => none
  | c :: rest =>
    if isUpperAZ c then
      let ls := rest.takeWhile isLowerAZ
      if ls.isEmpty then none
      else
        let rest1 := rest.drop ls.length
        let (groups, rest2) := capGroupsGo rest1
        let boundaryOk :=
          match rest2 with
          | [] => true
          | d :: _ => !isWordC d
        if boundaryOk then some (c :: ls ++ groups.flatten, rest2)
        else
          match groups.getLast? with
          | some g =>
            some (c :: ls ++ (groups.dropLast).flatten, g ++ rest2)
          | none => none
    else none

/-- Global scan for `\b([A-Z][a-z]+(?:\s[A-Z][a-z]+)*)\b`: the list of all
matches, left to right, resuming after each match. -/
def capWordsGo : Nat → Bool → List Char → List String
  | 0, _, _ => []
  | _, _, [] => []
  | fuel + 1, bnd, c :: cs =>
    if bnd && isUpperAZ c then
      match capMatchAt (c :: cs) with
      | some (m, rest) => String.mk m :: capWordsGo fuel false rest
      | none => capWordsGo fuel (!isWordC c) cs
    else capWordsGo fuel (!isWordC c) cs

def capWords (cs : List Char) : List String :=
  capWordsGo (cs.length + 1) true cs

/-- Competitive-landscape fallback: capitalised word sequences in the
section, minus stopwords and the search term, capped at 5. -/
def competitorsFallback (searchTerm : String) (cs : List Char) : List String :=
  match sectionSpan "## Competitive Landscape" cs with
  | none => []
  | some sec =>
    if sec.isEmpty then []
    else
      let names := capWords sec
      if names.isEmpty then []
      else
        let filtered :=
          (names.filter (fun n => !(commonWords.contains n) && n != searchTerm)).take 5
        if filtered.isEmpty then [] else filtered

/-- The extraction result of the single-subject page.  Money metrics are the
raw matched *strings* (e.g. `"$120 million"`); only `foundingYear` is
numeric (`parseInt` of four digits) and `employeeCount` keeps the digits
with `[,\s]` removed. -/
structure ExtractedData where
  marketSize : Option String
  foundingYear : Option ℤ
  employeeCount : Option String
  fundingAmount : Option String
  valuation : Option String
  revenueEstimate : Option String
  competitors : List String

/-- The default record returned before any pattern runs. -/
def emptyExtracted : ExtractedData :=
  ⟨none, none, none, none, none, none, []⟩

/-- `extractDataFromAnalysis(analysisText)` with the page's `searchTerm`
closure variable made explicit.  A `null`/empty text short-circuits to the
default record; otherwise every field is filled independently by its
pattern cascade. -/
def extractDataFromAnalysis (searchTerm : String) (analysisText : String) :
    ExtractedData :=
  if analysisText == "" then emptyExtracted
  else
    let cs := analysisText.data
    { marketSize :=
        match firstCapture marketSizePatterns cs with
        | some cap => some (String.mk cap)
        | none => marketSectionFallback cs
      foundingYear :=
        (firstCapture foundingYearPatterns cs).map (fun ds => (digitsToNat ds : ℤ))
      employeeCount :=
        (firstCapture employeePatterns cs).map
          (fun cap => String.mk (cap.filter (fun c => !(c == ',' || jsWs c))))
      fundingAmount := (firstCapture fundingPatterns cs).map String.mk
      valuation := (firstCapture valuationPatterns cs).map String.mk
      revenueEstimate := (firstCapture revenuePatterns cs).map String.mk
      competitors :=
        let prim := competitorsPrimary competitorPatterns cs
        if prim.isEmpty then competitorsFallback searchTerm cs else prim }

/-! ## Section parsing (`/api/perplexity` route)

`parseContentIntoSections` splits the oracle text into seven fixed sections.
`extractSection(content, re, nextRe)` builds the regex
`re.source + "[\s\S]*?(?=" + nextRe.source + "|$)"`: the match starts at the
leftmost occurrence of `re` and extends minimally to the first position where
`nextRe` matches, or to the end (the `$` alternative always succeeds there).
The header is then removed with `^.*?re[:\s]*` and the result trimmed.
The embedded operations are total, so the route's `catch` fallback is dead
code here; a heading that is not found yields the empty string. -/

/-- `⟨n⟩\.?\s*⟨word⟩`, e.g. `1\.?\s*Overview`. -/
def mkNumPat (n word : String) (k : Cont) : Cont :=
  plit n (popt (plit ".") (pws (plit word k)))

def ovPat : Cont → Cont := pAlts [plit "Overview", fun k => mkNumPat "1" "Overview" k]

def marketNextPat : Cont → Cont := pAlts [plit "Market", fun k => mkNumPat "2" "Market" k]

def marketOppPat : Cont → Cont :=
  pAlts [plit "Market", plit "Market Opportunity", fun k => mkNumPat "2" "Market" k]

def compPat : Cont → Cont :=
  pAlts [plit "Competition", plit "Competitive", fun k => mkNumPat "3" "Competition" k]

def bizNextPat : Cont → Cont := pAlts [plit "Business", fun k => mkNumPat "4" "Business" k]

def bizModelPat : Cont → Cont :=
  pAlts [plit "Business", plit "Business Model", fun k => mkNumPat "4" "Business" k]

def teamPat : Cont → Cont :=
  pAlts [plit "Team", plit "Leadership", fun k => mkNumPat "5" "Team" k]

def risksNextPat : Cont → Cont := pAlts [plit "Risks", fun k => mkNumPat "6" "Risks" k]

def risksPat : Cont → Cont :=
  pAlts [plit "Risks", plit "Risks and Challenges", fun k => mkNumPat "6" "Risks" k]

def invNextPat : Cont → Cont := pAlts [plit "Investment", fun k => mkNumPat "7" "Investment" k]

def invPat : Cont → Cont :=
  pAlts [plit "Investment", plit "Investment Potential", fun k => mkNumPat "7" "Investment" k]

/-- `/$/`: matches only at the end of input. -/
def eosPat : Cont → Cont := fun k cs =>
  match cs with
  | [] => k []
  | _ :: _ => none

/-- `[:\s]*` (greedy, after the header in the strip regex). -/
def dropColonWs (cs : List Char) : List Char :=
  cs.dropWhile (fun c => c == ':' || jsWs c)

/-- `^.*?⟨pat⟩[:\s]*` with replacement by the empty string: walk over
non-newline characters to the first position where `pat` matches, and drop
everything up to and including the trailing `[:\s]*`. -/
def stripHeaderGo (pat : Cont → Cont) : List Char → Option (List Char)
  | [] => (pat some []).map dropColonWs
  | c :: cs =>
    match pat some (c :: cs) with
    | some rest => some (dropColonWs rest)
    | none => if c == '\n' then none else stripHeaderGo pat cs

def stripHeader (pat : Cont → Cont) (cs : List Char) : List Char :=
  match stripHeaderGo pat cs with
  | some r => r
  | none => cs

/-- `extractSection(content, pat, nextPat)`. -/
def extractSection (content : String) (pat nextPat : Cont → Cont) : String :=
  let cs := content.data
  match searchIdx pat cs with
  | none => ""
  | some (i, len) =>
    let tail := cs.drop i
    let stopOff := stopScan nextPat (tail.drop len)
    let sec := tail.take (len + stopOff)
    String.mk (trimWs (stripHeader pat sec))

/-- Core of `^\s*(\d+\.)\s*`: after the leading whitespace, one-or-more
digits then a dot. -/
def bulletCoreNum (cs : List Char) : Option (List Char) :=
  let ds := cs.takeWhile Char.isDigit
  if ds.isEmpty then none
  else
    match cs.drop ds.length with
    | '.' :: rest => some rest
    | _ => none

/-- Core of `^\s*[-–—]\s*`. -/
def bulletCoreDash (cs : List Char) : Option (List Char) :=
  match cs with
  | c :: rest => if c == '-' || c == '–' || c == '—' then some rest else none
  | [] => none

/-- Core of `^\s*\*\s*`. -/
def bulletCoreStar (cs : List Char) : Option (List Char) :=
  match cs with
  | '*' :: rest => some rest
  | _ => none

/-- One global-multiline replace pass `^\s*⟨core⟩\s* → "• "`: anchors are the
start of input and every position after a newline; a match consumes the
whitespace run, the core, and the trailing whitespace run. -/
def gmReplaceGo (core : List Char → Option (List Char)) :
    Nat → Bool → List Char → List Char
  | 0, _, cs => cs
  | _, _, [] => []
  | fuel + 1, bnd, c :: cs =>
    if bnd then
      let afterWs := (c :: cs).dropWhile jsWs
      match core afterWs with
      | some rest =>
        let rest2 := rest.dropWhile jsWs
        let consumed := (c :: cs).take ((c :: cs).length - rest2.length)
        '•' :: ' ' :: gmReplaceGo core fuel (consumed.getLast? == some '\n') rest2
      | none => c :: gmReplaceGo core fuel (c == '\n') cs
    else c :: gmReplaceGo core fuel (c == '\n') cs

def gmReplace (core : List Char → Option (List Char)) (cs : List Char) : List Char :=
  gmReplaceGo core (cs.length + 1) true cs

/-- `\[\d+\]/g → ''` (fueled scan; every step consumes at least one
character). -/
def removeCitesGo : Nat → List Char → List Char
  | 0, cs => cs
  | _, [] => []
  | fuel + 1, '[' :: cs =>
    let ds := cs.takeWhile Char.isDigit
    if ds.isEmpty then '[' :: removeCitesGo fuel cs
    else
      match cs.drop ds.length with
      | ']' :: rest => removeCitesGo fuel rest
      | _ => '[' :: removeCitesGo fuel cs
  | fuel + 1, c :: cs => c :: removeCitesGo fuel cs

def removeCites (cs : List Char) : List Char :=
  removeCitesGo (cs.length + 1) cs

/-- `\s{2,}/g → ' '`: every whitespace run of length at least two collapses
to a single space (fueled scan). -/
def collapseWsGo : Nat → List Char → List Char
  | 0, cs => cs
  | _, [] => []
  | fuel + 1, c :: cs =>
    if jsWs c then
      let ws := cs.takeWhile jsWs
      if ws.isEmpty then c :: collapseWsGo fuel cs
      else ' ' :: collapseWsGo fuel (cs.drop ws.length)
    else c :: collapseWsGo fuel cs

def collapseWs (cs : List Char) : List Char :=
  collapseWsGo (cs.length + 1) cs

/-- `•/g → '\n• '`. -/
def bulletNewline : List Char → List Char
  | [] => []
  | c :: cs =>
    if c == '•' then '\n' :: '•' :: ' ' :: bulletNewline cs
    else c :: bulletNewline cs

/-- `^\n` removed once (no multiline flag). -/
def dropLeadNL : List Char → List Char
  | '\n' :: rest => rest
  | cs => cs

/-- `formatBulletPoints`. -/
def formatBulletPoints (content : String) : String :=
  if content == "" then ""
  else
    let cs := trimWs content.data
    let cs := gmReplace bulletCoreNum cs
    let cs := gmReplace bulletCoreDash cs
    let cs := gmReplace bulletCoreStar cs
    let cs := removeCites cs
    let cs := collapseWs cs
    let cs := bulletNewline cs
    String.mk (dropLeadNL cs)

/-- The seven-section result of the analysis route; every field is a
(non-null) string. -/
structure Sections where
  overview : String
  marketOpportunity : String
  competitiveLandscape : String
  businessModel : String
  teamAssessment : String
  risksAndChallenges : String
  investmentPotential : String

/-- `parseContentIntoSections`.  The route's `try`/`catch` wrapper is dead
here because every embedded operation is total. -/
def parseContentIntoSections (content : String) : Sections where
  overview := formatBulletPoints (extractSection content ovPat marketNextPat)
  marketOpportunity := formatBulletPoints (extractSection content marketOppPat compPat)
  competitiveLandscape := formatBulletPoints (extractSection content compPat bizNextPat)
  businessModel := formatBulletPoints (extractSection content bizModelPat teamPat)
  teamAssessment := formatBulletPoints (extractSection content teamPat risksNextPat)
  risksAndChallenges := formatBulletPoints (extractSection content risksPat invNextPat)
  investmentPotential := formatBulletPoints (extractSection content invPat eosPat)

/-! ## `AnalysisForm.onSubmit` control flow

The form first POSTs the new subject to the persistence store, then calls
the analysis generator, sets the displayed result, and finally saves the
analysis.  All four steps live in one `try`; a thrown error anywhere jumps
to the `catch`, which only logs.  We model the three collaborator outcomes
as inputs and compute the final value of the `analysisResult` state. -/

structure AnalysisEnv where
  createStartup : Except String String
  analyze : Except String Sections
  saveAnalysis : Except String Unit

/-- The value of `analysisResult` after `onSubmit` finishes:
`createStartup` failure throws before the analysis is generated;
`saveAnalysis` failure throws after `setAnalysisResult` has already run. -/
def analysisFormOnSubmit (env : AnalysisEnv) : Option Sections :=
  match env.createStartup with
  | .error _ => none
  | .ok _ =>
    match env.analyze with
    | .error _ => none
    | .ok a =>
      match env.saveAnalysis with
      | .ok _ => some a
      | .error _ => some a

/-! ## Fixtures -/

/-- Comparison oracle text whose fenced JSON keys are `"ACME"` (upper case)
and `"Globex"` (exact case), for inputs `"Acme"`/`"Globex"`. -/
def c3text : String :=
  "Overview.\n```json\n\x7b\"ACME\": \x7b\"foundingYear\": 2015\x7d, \"Globex\": \x7b\"foundingYear\": 2016\x7d\x7d\n```\nDone."

/-- The string the fence regex extracts from `c3text`. -/
def c3block : String :=
  "\x7b\"ACME\": \x7b\"foundingYear\": 2015\x7d, \"Globex\": \x7b\"foundingYear\": 2016\x7d\x7d"

/-- The parsed JSON value of `c3block`. -/
def c3json : Json :=
  Json.obj [("ACME", Json.obj [("foundingYear", Json.num 2015)]),
            ("Globex", Json.obj [("foundingYear", Json.num 2016)])]

/-- Single-subject oracle text containing `Founded in 2012` and
`has raised $120 million in funding` and no structured block. -/
def c5text : String :=
  "Acme was founded in 2012. Acme has raised $120 million in funding."

/-- Text whose `Competitive Landscape` section feeds the capitalised-words
fallback (no primary competitor pattern matches it). -/
def c8fallbackText : String := "## Competitive Landscape\nGoogle Microsoft"

/-- A sample seven-section analysis result. -/
def demoSections : Sections :=
  ⟨"overview text", "market text", "competition text", "model text",
   "team text", "risks text", "investment text"⟩

/-! ## Shared lemmas -/

/-- The competitive-landscape fallback only ever emits at most five tokens,
none of which is a stopword or the search term. -/
theorem competitorsFallback_spec (s : String) (cs : List Char) :
    (competitorsFallback s cs).length ≤ 5 ∧
    ∀ c ∈ competitorsFallback s cs, c ∉ commonWords ∧ c ≠ s := by
  unfold competitorsFallback
  cases h : sectionSpan "## Competitive Landscape" cs with
  | none => simp
  | some sec =>
    dsimp only
    split
    · simp
    · split
      · simp
      · split
        · simp
        · refine ⟨List.length_take_le 5 _, ?_⟩
          intro c hc
          have hp := List.of_mem_filter (List.mem_of_mem_take hc)
          simp only [Bool.and_eq_true, Bool.not_eq_true', bne_iff_ne] at hp
          exact ⟨by simpa using hp.1, hp.2⟩

/-! ## Claim theorems -/

/-- Claim C1, counterexample: a funding value with unit `"trillion"` is
passed through unscaled by `processBusinessData` (the source only scales
`fundingUnit === 'billion'`), so `normalizeMoney(v, "trillion") = v *
1,000,000` fails for the funding metric: 3 trillion stays `3`, not
`3000000`. -/
theorem C1_funding_trillion_counterexample :
    (processBusinessData (Json.obj [("funding", Json.num 3),
      ("fundingUnit", Json.str "trillion")])).funding = some 3 ∧
    (3 : ℚ) ≠ 3000000 :=
  ⟨rfl, by norm_num⟩

/-- Claim C1, amended: the money scaling is per-field, not uniform.  For a
non-zero value `v`: funding and revenue scale only `"billion"` (×1000) and
pass `"million"`, `"trillion"` and a missing unit through unchanged;
valuation implements the full contract (`"trillion"` ×1,000,000,
`"billion"` ×1000, else unchanged); the chart-side market-size string
conversion also implements the full contract (billion ×1000, million ×1,
trillion ×1,000,000, no unit unscaled), e.g. `$2.5 billion ↦ 2500`. -/
theorem C1_money_unit_scaling (v : ℚ) (hv : v ≠ 0) :
    (processBusinessData (Json.obj [("funding", Json.num v),
      ("fundingUnit", Json.str "million")])).funding = some v ∧
    (processBusinessData (Json.obj [("funding", Json.num v),
      ("fundingUnit", Json.str "billion")])).funding = some (v * 1000) ∧
    (processBusinessData (Json.obj [("funding", Json.num v),
      ("fundingUnit", Json.str "trillion")])).funding = some v ∧
    (processBusinessData (Json.obj [("funding", Json.num v)])).funding = some v ∧
    (processBusinessData (Json.obj [("valuation", Json.num v),
      ("valuationUnit", Json.str "million")])).valuation = some v ∧
    (processBusinessData (Json.obj [("valuation", Json.num v),
      ("valuationUnit", Json.str "billion")])).valuation = some (v * 1000) ∧
    (processBusinessData (Json.obj [("valuation", Json.num v),
      ("valuationUnit", Json.str "trillion")])).valuation = some (v * 1000000) ∧
    (processBusinessData (Json.obj [("valuation", Json.num v)])).valuation = some v ∧
    (processBusinessData (Json.obj [("revenue", Json.num v),
      ("revenueUnit", Json.str "million")])).revenue = some v ∧
    (processBusinessData (Json.obj [("revenue", Json.num v),
      ("revenueUnit", Json.str "billion")])).revenue = some (v * 1000) ∧
    (processBusinessData (Json.obj [("revenue", Json.num v),
      ("revenueUnit", Json.str "trillion")])).revenue = some v ∧
    (processBusinessData (Json.obj [("revenue", Json.num v)])).revenue = some v ∧
    marketSizeValue "$2.5 billion" = some 2500 ∧
    marketSizeValue "$2.5 million" = some (5 / 2) ∧
    marketSizeValue "$2.5 trillion" = some 2500000 ∧
    marketSizeValue "$42" = some 42 := by
  refine ⟨?_, ?_, ?_, ?_, ?_, ?_, ?_, ?_, ?_, ?_, ?_, ?_, ?_, ?_, ?_, ?_⟩ <;>
    first
      | simp [processBusinessData, jsNumField, objGet, objGetList, unitIs, jsTruthy, hv]
      | with_unfolding_all rfl

/-- Claim C1, witness: the amended scaling at `v = 5/2`, covering the spec's
own example `normalizeMoney(2.5, "billion") = 2500`. -/
theorem C1_money_unit_scaling_witness :
    (processBusinessData (Json.obj [("funding", Json.num (5 / 2)),
      ("fundingUnit", Json.str "billion")])).funding = some ((5 : ℚ) / 2 * 1000) ∧
    (processBusinessData (Json.obj [("funding", Json.num (5 / 2)),
      ("fundingUnit", Json.str "trillion")])).funding = some ((5 : ℚ) / 2) := by
  have h := C1_money_unit_scaling (5 / 2) (by norm_num)
  exact ⟨h.2.1, h.2.2.1⟩

/-- Claim C2, counterexample: on comparison text with no fenced JSON block
and no bare two-key object, `extractMetricsFromText` does *not* raise — it
returns the metrics record pair, with every field in the unknown state. -/
theorem C2_no_block_counterexample :
    extractMetricsFromText "Two companies with no structured data." "Acme" "Globex" =
      (emptyMetrics, emptyMetrics) := by
  with_unfolding_all rfl

/-- Claim C2, amended: when the JSON-block cascade finds nothing, comparison
extraction returns the initialised all-`null` metrics records for both
subjects instead of raising an error; the charts then render their "no
data" placeholders. -/
theorem C2_no_block_returns_empty (text n1 n2 : String)
    (h : findJsonBlock text = none) :
    extractMetricsFromText text n1 n2 = (emptyMetrics, emptyMetrics) := by
  simp [extractMetricsFromText, h]

/-- Claim C2, witness: the amended behaviour at a concrete block-free
text. -/
theorem C2_no_block_returns_empty_witness :
    extractMetricsFromText "Acme versus Globex, a narrative only." "Acme" "Globex" =
      (emptyMetrics, emptyMetrics) :=
  C2_no_block_returns_empty "Acme versus Globex, a narrative only." "Acme" "Globex"
    (by with_unfolding_all rfl)

/-- Claim C3, counterexample: with JSON keys `"ACME"`/`"Globex"` and input
names `"Acme"`/`"Globex"`, the first subject receives *no* metrics (its
record stays all-`null`): the code only tries `jsonData[name.toLowerCase()]`
and `jsonData[name]`, so there is no case-insensitive exact match and no
positional fallback; the second subject matches only because its key is
spelled identically. -/
theorem C3_case_mismatch_counterexample :
    (extractMetricsFromText c3text "Acme" "Globex").1 = emptyMetrics ∧
    (extractMetricsFromText c3text "Acme" "Globex").2.foundingYear =
      some (Json.num 2016) := by
  constructor
  · with_unfolding_all rfl
  · with_unfolding_all rfl

/-- Claim C3, amended: structured extraction matches each input name against
the JSON's top-level keys by looking up the lowercased name first, else the
verbatim name, and otherwise leaves the subject's record all-`null`; there
is no general case-insensitive match and no positional fallback. -/
theorem C3_key_matching (t n1 n2 s : String) (j : Json)
    (hf : findJsonBlock t = some s)
    (hp : parseJson (cleanControlChars s) = some j) :
    extractMetricsFromText t n1 n2 = (lookupMetrics j n1, lookupMetrics j n2) ∧
    (∀ (n : String) (d : Json), truthyGet j n.toLower = some d →
      lookupMetrics j n = processBusinessData d) ∧
    (∀ (n : String) (d : Json), truthyGet j n.toLower = none →
      truthyGet j n = some d → lookupMetrics j n = processBusinessData d) ∧
    (∀ n : String, truthyGet j n.toLower = none → truthyGet j n = none →
      lookupMetrics j n = emptyMetrics) := by
  refine ⟨?_, ?_, ?_, ?_⟩
  · simp [extractMetricsFromText, hf, hp]
  · intro n d h
    simp [lookupMetrics, h]
  · intro n d h1 h2
    simp [lookupMetrics, h1, h2]
  · intro n h1 h2
    simp [lookupMetrics, h1, h2]

/-- Claim C3, witness: the amended matching on the `c3text` fixture — the
mis-cased key is skipped entirely, the exactly-spelled key is found by the
verbatim lookup. -/
theorem C3_key_matching_witness :
    extractMetricsFromText c3text "Acme" "Globex" =
      (lookupMetrics c3json "Acme", lookupMetrics c3json "Globex") ∧
    lookupMetrics c3json "Globex" =
      processBusinessData (Json.obj [("foundingYear", Json.num 2016)]) ∧
    lookupMetrics c3json "Acme" = emptyMetrics := by
  have h := C3_key_matching c3text "Acme" "Globex" c3block c3json
    (by with_unfolding_all rfl) (by with_unfolding_all rfl)
  exact ⟨h.1,
    h.2.2.1 "Globex" (Json.obj [("foundingYear", Json.num 2016)])
      (by with_unfolding_all rfl) (by with_unfolding_all rfl),
    h.2.2.2 "Acme" (by with_unfolding_all rfl) (by with_unfolding_all rfl)⟩

/-- Claim C4: `parseContentIntoSections` always yields a record with all
seven section keys (its result type has all seven `String` fields, never
null), and every section whose heading pattern is not found in the text is
the empty string. -/
theorem C4_missing_sections_empty (content : String) :
    (searchIdx ovPat content.data = none →
      (parseContentIntoSections content).overview = "") ∧
    (searchIdx marketOppPat content.data = none →
      (parseContentIntoSections content).marketOpportunity = "") ∧
    (searchIdx compPat content.data = none →
      (parseContentIntoSections content).competitiveLandscape = "") ∧
    (searchIdx bizModelPat content.data = none →
      (parseContentIntoSections content).businessModel = "") ∧
    (searchIdx teamPat content.data = none →
      (parseContentIntoSections content).teamAssessment = "") ∧
    (searchIdx risksPat content.data = none →
      (parseContentIntoSections content).risksAndChallenges = "") ∧
    (searchIdx invPat content.data = none →
      (parseContentIntoSections content).investmentPotential = "") := by
  refine ⟨?_, ?_, ?_, ?_, ?_, ?_, ?_⟩ <;>
    · intro h
      simp [parseContentIntoSections, extractSection, h, formatBulletPoints]

/-- Claim C4, witness: on text containing none of the section headings,
every one of the seven sections is the empty string. -/
theorem C4_missing_sections_empty_witness :
    (parseContentIntoSections "hi").overview = "" ∧
    (parseContentIntoSections "hi").marketOpportunity = "" ∧
    (parseContentIntoSections "hi").competitiveLandscape = "" ∧
    (parseContentIntoSections "hi").businessModel = "" ∧
    (parseContentIntoSections "hi").teamAssessment = "" ∧
    (parseContentIntoSections "hi").risksAndChallenges = "" ∧
    (parseContentIntoSections "hi").investmentPotential = "" := by
  have h := C4_missing_sections_empty "hi"
  exact ⟨h.1 (by with_unfolding_all rfl), h.2.1 (by with_unfolding_all rfl),
    h.2.2.1 (by with_unfolding_all rfl), h.2.2.2.1 (by with_unfolding_all rfl),
    h.2.2.2.2.1 (by with_unfolding_all rfl), h.2.2.2.2.2.1 (by with_unfolding_all rfl),
    h.2.2.2.2.2.2 (by with_unfolding_all rfl)⟩

/-- Claim C5, counterexample: on the fixture text the heuristic stores the
*raw matched string* `"$120 million"` in the funding field — it never
normalises funding to a number, so the claimed numeric `120` in canonical
millions does not exist in the extraction result. -/
theorem C5_funding_raw_string_counterexample :
    (extractDataFromAnalysis "Acme" c5text).fundingAmount = some "$120 million" ∧
    (extractDataFromAnalysis "Acme" c5text).fundingAmount ≠ some "120" := by
  constructor
  · with_unfolding_all rfl
  · intro h
    rw [show (extractDataFromAnalysis "Acme" c5text).fundingAmount
        = some "$120 million" by with_unfolding_all rfl] at h
    simp at h

/-- Claim C5, amended: on the fixture text the heuristic yields
`foundingYear = 2012` (an integer) and `fundingAmount = "$120 million"`
(the raw matched string, not a canonical-millions number), with every other
metric field unknown and no competitors. -/
theorem C5_heuristic_fixture :
    extractDataFromAnalysis "Acme" c5text =
      ⟨none, some 2012, none, some "$120 million", none, none, []⟩ := by
  with_unfolding_all rfl

/-- Claim C6: heuristic extraction is total by construction (the embedding
is a Lean function, mirroring the fact that the source only uses
non-throwing string operations), and any metric field whose pattern cascade
finds no match in the text stays in the unknown state — `none` for the
scalar fields and `[]` for competitors — never an error and never zero. -/
theorem C6_no_match_leaves_unknown (s text : String)
    (h1 : firstCapture marketSizePatterns text.data = none)
    (h2 : marketSectionFallback text.data = none)
    (h3 : firstCapture foundingYearPatterns text.data = none)
    (h4 : firstCapture employeePatterns text.data = none)
    (h5 : firstCapture fundingPatterns text.data = none)
    (h6 : firstCapture valuationPatterns text.data = none)
    (h7 : firstCapture revenuePatterns text.data = none)
    (h8 : competitorsPrimary competitorPatterns text.data = [])
    (h9 : competitorsFallback s text.data = []) :
    extractDataFromAnalysis s text = emptyExtracted := by
  unfold extractDataFromAnalysis
  split
  · rfl
  · simp [h1, h2, h3, h4, h5, h6, h7, h8, h9, emptyExtracted]

/-- Claim C6, witness: on text matching no pattern at all, every field of
the extraction result is unknown. -/
theorem C6_no_match_leaves_unknown_witness :
    extractDataFromAnalysis "Acme" "hello" = emptyExtracted :=
  C6_no_match_leaves_unknown "Acme" "hello"
    (by with_unfolding_all rfl) (by with_unfolding_all rfl)
    (by with_unfolding_all rfl) (by with_unfolding_all rfl)
    (by with_unfolding_all rfl) (by with_unfolding_all rfl)
    (by with_unfolding_all rfl) (by with_unfolding_all rfl)
    (by with_unfolding_all rfl)

/-- Claim C7: the ratio normalisation (the spec's `normalizeRatio`) scales a
value `v ≤ 1` by ×100 and leaves `v > 1` unchanged, so `0.23 ↦ 23` and
`45 ↦ 45`; it is idempotent on the percent range; and `processBusinessData`
applies exactly this function to a truthy numeric `growthRate`. -/
theorem C7_ratio_normalization (v : ℚ) :
    (v ≤ 1 → ratioToPercent v = v * 100) ∧
    (1 < v → ratioToPercent v = v) ∧
    (1 < v → ratioToPercent (ratioToPercent v) = ratioToPercent v) ∧
    ratioToPercent (23 / 100) = 23 ∧
    ratioToPercent 45 = 45 ∧
    (∀ (d : Json) (q : ℚ), objGet d "growthRate" = some (Json.num q) → q ≠ 0 →
      (processBusinessData d).growthRate = some (ratioToPercent q)) := by
  refine ⟨?_, ?_, ?_, ?_, ?_, ?_⟩
  · intro h
    simp [ratioToPercent, h]
  · intro h
    simp [ratioToPercent, not_le.mpr h]
  · intro h
    simp [ratioToPercent, not_le.mpr h]
  · norm_num [ratioToPercent]
  · norm_num [ratioToPercent]
  · intro d q h hq
    simp [processBusinessData, jsNumField, h, jsTruthy, hq]

/-- Claim C7, witness: the normalisation at the spec's own sample points,
and through `processBusinessData`. -/
theorem C7_ratio_normalization_witness :
    ratioToPercent (1 / 4) = 1 / 4 * 100 ∧
    ratioToPercent 45 = 45 ∧
    (processBusinessData (Json.obj [("growthRate", Json.num (23 / 100))])).growthRate =
      some (ratioToPercent (23 / 100)) := by
  refine ⟨(C7_ratio_normalization (1 / 4)).1 (by norm_num),
    (C7_ratio_normalization 45).2.2.2.2.1,
    (C7_ratio_normalization 0).2.2.2.2.2
      (Json.obj [("growthRate", Json.num (23 / 100))]) (23 / 100)
      (by with_unfolding_all rfl) (by norm_num)⟩

/-- Claim C8, counterexample: the primary competitor-pattern path applies no
de-duplication and does not exclude the subject's own name — on
`"competitors are Acme; Acme;"` with subject `"Acme"` it returns
`["Acme", "Acme"]`. -/
theorem C8_duplicates_counterexample :
    (extractDataFromAnalysis "Acme" "competitors are Acme; Acme;").competitors =
      ["Acme", "Acme"] := by
  with_unfolding_all rfl

/-- Claim C8, amended: only the capitalised-words fallback over the
Competitive Landscape section filters its output — when the primary
competitor patterns yield nothing, the competitors list has at most 5
entries, none of which is a stopword from `commonWords` or the subject's
own name.  The primary pattern path performs none of these steps, and
neither path de-duplicates. -/
theorem C8_fallback_filtered_capped (s text : String)
    (h : competitorsPrimary competitorPatterns text.data = []) :
    (extractDataFromAnalysis s text).competitors.length ≤ 5 ∧
    ∀ c ∈ (extractDataFromAnalysis s text).competitors, c ∉ commonWords ∧ c ≠ s := by
  unfold extractDataFromAnalysis
  split
  · simp [emptyExtracted]
  · simp only [h, List.isEmpty_nil, if_true]
    exact competitorsFallback_spec s text.data

/-- Claim C8, witness: the fallback on a Competitive Landscape section with
no primary-pattern match. -/
theorem C8_fallback_filtered_capped_witness :
    (extractDataFromAnalysis "Acme" c8fallbackText).competitors.length ≤ 5 ∧
    ∀ c ∈ (extractDataFromAnalysis "Acme" c8fallbackText).competitors,
      c ∉ commonWords ∧ c ≠ "Acme" :=
  C8_fallback_filtered_capped "Acme" c8fallbackText (by with_unfolding_all rfl)

/-- Claim C9, counterexample: a failure of the *create-subject* persistence
call aborts `onSubmit` before the analysis is generated — the displayed
result stays `none` even though the oracle call would have succeeded, so a
persistence failure does prevent an analysis from being shown. -/
theorem C9_create_subject_failure_counterexample :
    analysisFormOnSubmit
      ⟨Except.error "persistence down", Except.ok demoSections, Except.ok ()⟩ = none :=
  rfl

/-- Claim C9, amended: once the subject was created and the analysis
obtained, the result is displayed regardless of the outcome of the
create-analysis (save) call — `setAnalysisResult` runs before `saveAnalysis`
and a save error is only caught and logged.  A create-subject failure,
however, happens before the oracle call and aborts the whole flow. -/
theorem C9_save_failure_still_displays (sid : String) (a : Sections)
    (save : Except String Unit) :
    analysisFormOnSubmit ⟨Except.ok sid, Except.ok a, save⟩ = some a := by
  cases save <;> rfl

/-- Claim C10: every metric field of `processBusinessData` is gated by a
JavaScript truthiness check, so the JSON number `0` is mapped to `null`
(the unknown state) in every field, is indistinguishable from an absent
field at the interface, and is rendered `"N/A"` by the comparison table. -/
theorem C10_zero_is_unknown (d : Json) :
    (objGet d "funding" = some (Json.num 0) →
      (processBusinessData d).funding = none ∧
      renderFundingCell (processBusinessData d).funding = "N/A" ∧
      (processBusinessData d).funding = (processBusinessData (Json.obj [])).funding) ∧
    (objGet d "marketShare" = some (Json.num 0) →
      (processBusinessData d).marketShare = none) ∧
    (objGet d "growthRate" = some (Json.num 0) →
      (processBusinessData d).growthRate = none) ∧
    (objGet d "valuation" = some (Json.num 0) →
      (processBusinessData d).valuation = none) ∧
    (objGet d "revenue" = some (Json.num 0) →
      (processBusinessData d).revenue = none) ∧
    (objGet d "marketSize" = some (Json.num 0) →
      (processBusinessData d).marketSize = none) ∧
    (objGet d "employees" = some (Json.num 0) →
      (processBusinessData d).employees = none) ∧
    (objGet d "foundingYear" = some (Json.num 0) →
      (processBusinessData d).foundingYear = none) := by
  refine ⟨?_, ?_, ?_, ?_, ?_, ?_, ?_, ?_⟩
  · intro h
    have hz : (processBusinessData d).funding = none := by
      simp [processBusinessData, jsNumField, h, jsTruthy]
    exact ⟨hz, by simp [hz, renderFundingCell], by rw [hz]; rfl⟩
  all_goals
    intro h
    simp [processBusinessData, jsNumField, h, jsTruthy]

/-- Claim C10, witness: zero funding and zero market share are unknown and
render as `"N/A"`. -/
theorem C10_zero_is_unknown_witness :
    (processBusinessData (Json.obj [("funding", Json.num 0),
      ("marketShare", Json.num 0)])).funding = none ∧
    renderFundingCell (processBusinessData (Json.obj [("funding", Json.num 0),
      ("marketShare", Json.num 0)])).funding = "N/A" ∧
    (processBusinessData (Json.obj [("funding", Json.num 0),
      ("marketShare", Json.num 0)])).marketShare = none := by
  have h := C10_zero_is_unknown (Json.obj [("funding", Json.num 0),
    ("marketShare", Json.num 0)])
  have h1 := h.1 (by with_unfolding_all rfl)
  exact ⟨h1.1, h1.2.1, h.2.1 (by with_unfolding_all rfl)⟩

end StartupXray
